import Mathlib

/-!
# Verification of the marix file-transfer subsystem

Shallow embedding of the task queue, inner file-job queue, directory scanner
and transfer-engine selection of the `quocson95/marix` repository
(`pkg/sftp/task_queue.go`, `pkg/sftp/directory_scanner.go`, the
`FileQueue`, `RsyncEngine`, `InternalEngine` and `NewTransferEngine`
sources), together with theorems that check the natural-language
specification's claims against these definitions.

Modelling conventions:
* Go `int`/`int64` byte counts and file sizes are modelled as `Nat`
  (`os.FileInfo.Size` is non-negative for the files being walked).
* Go channels are modelled as bounded FIFO buffers (`List` plus capacity);
  a non-blocking send (`select`/`default`) appends when there is room and
  drops the element otherwise.
* The concurrent inner file queue (`FileQueue.ProcessJobs`) is modelled as
  a small-step machine over an explicit schedule of dispatch/completion
  actions; a ghost `hist` field records completed jobs in completion order.
* Floating-point speed calculation in `notify` is not modelled (no claim
  mentions it); the float percentage `int(bytes/total*100)` is modelled as
  the rational floor `bytes * 100 / total` on `Nat`, which agrees with the
  Go code at the points the claims touch (`0`, `100`, and the `≤ 100` bound).
-/

namespace Marix

/-! ## Data model (task_queue.go, directory_scanner.go) -/

/-- Model of `TaskType` from task_queue.go. -/
inductive TaskType where
  | uploadFile
  | uploadDirectory
  | downloadFile
  | downloadDirectory
  deriving DecidableEq, Repr

/-- Model of `TaskState` from task_queue.go. -/
inductive TaskState where
  | pending
  | scanning
  | transferring
  | completed
  | failed
  | cancelled
  deriving DecidableEq, Repr

/-- Model of `FileJob` from directory_scanner.go (the unused `IsRecursive` field is
omitted; `Size` is a byte count, see the conventions above). -/
structure FileJob where
  path : String
  absPath : String
  destPath : String
  size : Nat
  isDir : Bool
  deriving DecidableEq, Repr

/-- Model of `TaskProgress` from task_queue.go.  `FailedFiles` is never written by the
source and `CurrentSpeed` is float-valued (not modelled); both are omitted. -/
structure TaskProgress where
  taskID : Nat
  state : TaskState
  totalFiles : Nat
  completedFiles : Nat
  bytesTransferred : Nat
  totalSize : Nat
  percentage : Nat
  lastLog : String
  error : Option String
  deriving DecidableEq, Repr

/-- The fields of `Task` (task_queue.go) that the claims are about.  The
mutable aggregate counters `task.Progress.CompletedFiles` and
`task.Progress.BytesTransferred` are inlined as fields. -/
structure Task where
  id : Nat
  type : TaskType
  source : String
  dest : String
  name : String
  state : TaskState
  progressCompletedFiles : Nat
  progressBytesTransferred : Nat
  totalFiles : Nat
  totalSize : Nat
  err : Option String
  deriving DecidableEq, Repr

/-- The task literal built by `QueueTask` (task_queue.go lines 133-142). -/
def mkTask (id : Nat) (taskType : TaskType) (source dest name : String) : Task :=
  { id := id
    type := taskType
    source := source
    dest := dest
    name := name
    state := TaskState.pending
    progressCompletedFiles := 0
    progressBytesTransferred := 0
    totalFiles := 0
    totalSize := 0
    err := none }

/-! ## The progress channel and `notify` -/

/-- A bounded channel of `TaskProgress` snapshots (the injected
`updateChan`). -/
structure Channel where
  capacity : Nat
  buffer : List TaskProgress
  deriving DecidableEq, Repr

/-- Non-blocking send (`select { case ch <- p: default: }`): appends when
there is room, otherwise drops the snapshot. -/
def trySend (ch : Channel) (p : TaskProgress) : Channel :=
  if ch.buffer.length < ch.capacity then
    { ch with buffer := ch.buffer ++ [p] }
  else
    ch

/-- The percentage computed inside `notify`: `0` unless `TotalSize > 0`,
else the floor of `bytes / total * 100`. -/
def percentageOf (bytes total : Nat) : Nat :=
  if 0 < total then bytes * 100 / total else 0

/-- The snapshot built by `TaskQueue.notify` (task_queue.go lines 451-469):
all counter fields are copied from the task; `Percentage` is derived;
`LastLog` is left at its zero value (the source never sets it here). -/
def buildProgress (t : Task) : TaskProgress :=
  { taskID := t.id
    state := t.state
    totalFiles := t.totalFiles
    completedFiles := t.progressCompletedFiles
    bytesTransferred := t.progressBytesTransferred
    totalSize := t.totalSize
    percentage := percentageOf t.progressBytesTransferred t.totalSize
    lastLog := ""
    error := t.err }

/-- Model of `TaskQueue.notify` (task_queue.go lines 451-499): builds the snapshot and
sends it with a NON-blocking send — the `select`/`default` at lines 494-498
applies to every call, terminal states included. -/
def notify (t : Task) (ch : Channel) : Channel :=
  trySend ch (buildProgress t)

/-- The bare log-line snapshots the source sends directly on the channel
(e.g. task_queue.go lines 222-227, 250-255, 354-358): only `TaskID`,
`State` and `LastLog` are populated, every other field is the zero value. -/
def rawLogSnap (id : Nat) (st : TaskState) (line : String) : TaskProgress :=
  { taskID := id
    state := st
    totalFiles := 0
    completedFiles := 0
    bytesTransferred := 0
    totalSize := 0
    percentage := 0
    lastLog := line
    error := none }

/-! ## `QueueTask` (task_queue.go lines 127-159) -/

/-- The slice of `Settings` (storage) consulted by the transfer subsystem. -/
structure Settings where
  disableRsync : Bool
  deriving DecidableEq, Repr

/-- The `TaskQueue` state touched by `QueueTask`: the task history, the
bounded admission channel `taskChan` (capacity `maxTasks * 2`,
task_queue.go line 108), the out-channel and the ID counter. -/
structure TaskQueueState where
  settings : Settings
  maxTasks : Nat
  tasks : List Task
  taskChan : List Task
  updateChan : Channel
  nextID : Nat
  deriving DecidableEq, Repr

/-- Model of `TaskQueue.QueueTask`: builds the task, advances `nextID`, appends to
`tasks`, publishes the Pending snapshot via `notify`, and only THEN tries
the non-blocking enqueue on `taskChan`; on a full channel it returns the
queue-full error (`none` here) with all earlier mutations kept. -/
def QueueTask (q : TaskQueueState) (taskType : TaskType) (source dest name : String) :
    Option Task × TaskQueueState :=
  let task := mkTask q.nextID taskType source dest name
  let q1 : TaskQueueState :=
    { q with
        nextID := q.nextID + 1
        tasks := q.tasks ++ [task]
        updateChan := notify task q.updateChan }
  if q1.taskChan.length < q.maxTasks * 2 then
    (some task, { q1 with taskChan := q1.taskChan ++ [task] })
  else
    (none, q1)

/-! ## Engine selection (`NewTransferEngine`) and the rsync invocation -/

/-- The two implementations of the `TransferEngine` interface. -/
inductive EngineKind where
  | rsyncEngine
  | internalEngine
  deriving DecidableEq, Repr

/-- Model of `NewTransferEngine(client, sshConfig, settings)`: rsync engine iff
`!settings.DisableRsync` and the `rsync` binary is found on `PATH`
(`exec.LookPath`); otherwise the internal SFTP engine.  The task kind is
not an input. -/
def NewTransferEngine (disableRsync rsyncOnPath : Bool) : EngineKind :=
  if !disableRsync then
    if rsyncOnPath then EngineKind.rsyncEngine else EngineKind.internalEngine
  else
    EngineKind.internalEngine

/-- Model of `processTask` builds one engine per task (task_queue.go line 180) and
`makeExecutor`'s non-directory branch calls `engine.UploadFile` /
`engine.DownloadFile` on that same engine for single-file jobs, so the
engine kind running a task of any type is `NewTransferEngine`'s result. -/
def taskEngine (disableRsync rsyncOnPath : Bool) (_taskType : TaskType) : EngineKind :=
  NewTransferEngine disableRsync rsyncOnPath

/-- The `useRsync` flag (task_queue.go line 182): rsync fast path iff rsync
is not disabled and the task is a directory transfer.  (Availability on
`PATH` is NOT consulted here.) -/
def useRsync (disableRsync : Bool) (taskType : TaskType) : Bool :=
  !disableRsync &&
    (taskType == TaskType.uploadDirectory || taskType == TaskType.downloadDirectory)

/-- Connection parameters used by `RsyncEngine.runRsync`. -/
structure SSHConfigM where
  host : String
  port : Nat
  username : String
  deriving DecidableEq, Repr

/-- The SRC/DST argument pair of the spawned
`rsync -avz --info=progress2 -e <ssh...> SRC DST` command. -/
structure RsyncInvocation where
  src : String
  dst : String
  deriving DecidableEq, Repr

/-- The `user@host:path` remote form built in `runRsync`. -/
def remoteForm (cfg : SSHConfigM) (path : String) : String :=
  cfg.username ++ "@" ++ cfg.host ++ ":" ++ path

/-- Model of `RsyncEngine.runRsync` (part_006 lines 39-116), restricted to the SRC/DST
construction: with `upload = true` the source is the local path and the
destination is the remote form; with `upload = false` the source is the
remote form and the destination is the local path.  (POSIX branch; the
Windows `ToSlash` rewrite is identity on slash paths.) -/
def runRsyncArgs (cfg : SSHConfigM) (src dest : String) (upload : Bool) : RsyncInvocation :=
  if upload then
    { src := src, dst := remoteForm cfg dest }
  else
    { src := remoteForm cfg src, dst := dest }

/-- Model of `RsyncEngine.UploadFile`: `runRsync(ctx, localPath, remotePath, true, ...)`. -/
def rsyncUploadFile (cfg : SSHConfigM) (localPath remotePath : String) : RsyncInvocation :=
  runRsyncArgs cfg localPath remotePath true

/-- Model of `RsyncEngine.DownloadFile`: `runRsync(ctx, remotePath, localPath, false, ...)`. -/
def rsyncDownloadFile (cfg : SSHConfigM) (remotePath localPath : String) : RsyncInvocation :=
  runRsyncArgs cfg remotePath localPath false

/-- The single synthetic job of the rsync fast path
(task_queue.go lines 207-213). -/
def rsyncDirJob (t : Task) : FileJob :=
  { path := t.name
    absPath := t.source
    destPath := t.dest
    size := 0
    isDir := true }

/-- The task-field updates of the rsync fast path before the engine call
(task_queue.go lines 214-219): `totalFiles := 1`, `totalSize := 0`, state
`Transferring`. -/
def rsyncDirSetup (t : Task) : Task :=
  { t with
      totalFiles := 1
      totalSize := 0
      state := TaskState.transferring }

/-- The engine call made by the rsync fast path of `processTask`
(task_queue.go line 220): `engine.UploadFile(task.ctx, task.Source,
task.Dest, ...)` — for BOTH `TaskUploadDirectory` and
`TaskDownloadDirectory`. -/
def processTaskRsyncCall (cfg : SSHConfigM) (t : Task) : RsyncInvocation :=
  rsyncUploadFile cfg t.source t.dest

/-! ## The terminal-state `defer` of `processTask` (task_queue.go 184-203) -/

/-- The deferred terminal update: with a non-nil `result` the task becomes
`Cancelled` (when its context is cancelled) or `Failed` with the error
recorded; with a nil result it becomes `Completed` and the counters are
snapped to the totals. -/
def finishTask (ctxCancelled : Bool) (result : Option String) (t : Task) : Task :=
  match result with
  | some e =>
      if ctxCancelled then
        { t with state := TaskState.cancelled }
      else
        { t with state := TaskState.failed, err := some e }
  | none =>
      { t with
          state := TaskState.completed
          progressCompletedFiles := t.totalFiles
          progressBytesTransferred := t.totalSize }

/-! ## Directory scanner (directory_scanner.go) -/

/-- What a local walk entry's symlink resolves to (`EvalSymlinks` +
`os.Stat` in `ScanLocal`). -/
inductive LinkKind where
  | notLink
  | brokenLink
  | linkToDir
  | linkToFile
  deriving DecidableEq, Repr

/-- One entry yielded by `filepath.Walk`: absolute path, `Lstat` size and
directory bit, and symlink resolution. -/
structure WalkEntry where
  path : String
  size : Nat
  isDir : Bool
  link : LinkKind
  deriving DecidableEq, Repr

/-- One entry yielded by the SFTP walker in `ScanRemote`; `walkErr` is true
when `walker.Err()` is non-nil for this step (the source skips it). -/
structure RemoteWalkEntry where
  path : String
  size : Nat
  isDir : Bool
  walkErr : Bool
  deriving DecidableEq, Repr

/-- Simplified model of `filepath.Dir` (string arithmetic is irrelevant to
the verified claims). -/
def dirname (p : String) : String :=
  String.intercalate "/" ((p.splitOn "/").dropLast)

/-- Simplified model of `filepath.Rel(base, path)` for `path` under `base`. -/
def relOf (base path : String) : String :=
  path.drop (base.length + 1)

/-- Model of `filepath.Join`. -/
def joinPath (a b : String) : String :=
  a ++ "/" ++ b

/-- The body of the `filepath.Walk` closure in `ScanLocal`
(directory_scanner.go lines 49-104): broken symlinks and symlinks to
directories are skipped; every other entry is appended as a job and, when
it is not a directory, its size is added to the running total. -/
def scanLocalStep (baseDir remoteRoot : String) (acc : List FileJob × Nat)
    (e : WalkEntry) : List FileJob × Nat :=
  match e.link with
  | LinkKind.brokenLink => acc
  | LinkKind.linkToDir => acc
  | _ =>
      let relPath := relOf baseDir e.path
      let job : FileJob :=
        { path := relPath
          absPath := e.path
          destPath := joinPath remoteRoot relPath
          size := e.size
          isDir := e.isDir }
      (acc.1 ++ [job], acc.2 + (if e.isDir then 0 else e.size))

/-- Model of `DirectoryScanner.ScanLocal` over the sequence of walk entries,
returning `(jobs, totalSize)`. -/
def ScanLocal (root remoteRoot : String) (entries : List WalkEntry) :
    List FileJob × Nat :=
  entries.foldl (scanLocalStep (dirname root) remoteRoot) ([], 0)

/-- The body of the walker loop in `ScanRemote`
(directory_scanner.go lines 117-146): steps whose `walker.Err()` is
non-nil are skipped; every other entry is appended as a job and non-dir
sizes accumulate into the total. -/
def scanRemoteStep (baseDir localRoot : String) (acc : List FileJob × Nat)
    (e : RemoteWalkEntry) : List FileJob × Nat :=
  if e.walkErr then acc
  else
    let relPath := relOf baseDir e.path
    let job : FileJob :=
      { path := relPath
        absPath := e.path
        destPath := joinPath localRoot relPath
        size := e.size
        isDir := e.isDir }
    (acc.1 ++ [job], acc.2 + (if e.isDir then 0 else e.size))

/-- Model of `DirectoryScanner.ScanRemote` over the walker's entries. -/
def ScanRemote (root localRoot : String) (entries : List RemoteWalkEntry) :
    List FileJob × Nat :=
  entries.foldl (scanRemoteStep (dirname root) localRoot) ([], 0)

/-- Sum of the `Size` fields of a job list. -/
def sumSizes (l : List FileJob) : Nat :=
  (l.map FileJob.size).sum

/-! ## The inner file-job queue (`FileQueue.ProcessJobs`)

`ProcessJobs` runs up to `K` worker goroutines: the dispatch loop walks the
job list in order, breaking once it observes a latched error, and each
worker calls the executor and either aggregates the counters and invokes
`updateFn` (success) or latches the first error (`errOnce`).  We model one
run as a small-step machine driven by an explicit schedule of
dispatch/completion actions; executor results are a deterministic function
of the job for the run being modelled.  Completion of a job is modelled as
one atomic step (counter increments plus the `updateFn` call). -/

/-- Result of one executor call: bytes written and an optional error. -/
abbrev Executor := FileJob → Nat × Option String

/-- Machine state for one `ProcessJobs` run.  `pending` is the not yet
dispatched tail of the job list (the loop walks jobs in order), `inflight`
the dispatched but not yet completed jobs, `filesDone`/`bytesDone` the
atomic counters, `firstErr` the `errOnce`-latched error and `updates` the
arguments of the `updateFn` invocations so far.  `hist` is a ghost history
variable (not a field of the Go code): the completed jobs in completion
order. -/
structure FQState where
  pending : List FileJob
  inflight : List FileJob
  filesDone : Nat
  bytesDone : Nat
  firstErr : Option String
  updates : List (Nat × Nat)
  hist : List FileJob
  deriving DecidableEq, Repr

/-- Initial state of a `ProcessJobs` run on `jobs`. -/
def fqInit (jobs : List FileJob) : FQState :=
  { pending := jobs
    inflight := []
    filesDone := 0
    bytesDone := 0
    firstErr := none
    updates := []
    hist := [] }

/-- One scheduler action: dispatch the next pending job to a worker, or
complete the `i`-th in-flight job. -/
inductive FQAction where
  | dispatch
  | complete (i : Nat)
  deriving DecidableEq, Repr

/-- One step of a `ProcessJobs` run.  `dispatch` mirrors the loop body
(part_006 lines 173-211): it is only enabled while no error has been
observed (`if firstErr != nil break`) and a semaphore slot is free
(`inflight.length < K`).  `complete i` mirrors a worker finishing: on
success the counters are incremented and `updateFn(filesDone, bytesDone)`
is recorded; on failure `errOnce` keeps the first latched error. -/
def fqStep (K : Nat) (exec : Executor) (s : FQState) : FQAction → Option FQState
  | FQAction.dispatch =>
      match s.pending with
      | [] => none
      | j :: rest =>
          if s.firstErr.isSome then none
          else if s.inflight.length < K then
            some { s with pending := rest, inflight := s.inflight ++ [j] }
          else none
  | FQAction.complete i =>
      match s.inflight[i]? with
      | none => none
      | some j =>
          let s' := { s with inflight := s.inflight.eraseIdx i, hist := s.hist ++ [j] }
          match exec j with
          | (w, none) =>
              some { s' with
                  filesDone := s.filesDone + 1
                  bytesDone := s.bytesDone + w
                  updates := s.updates ++ [(s.filesDone + 1, s.bytesDone + w)] }
          | (_, some e) =>
              some { s' with
                  firstErr := match s.firstErr with
                    | none => some e
                    | some e0 => some e0 }

/-- Run a schedule of actions from a state; `none` when the schedule asks
for a step the code could not take. -/
def fqRun (K : Nat) (exec : Executor) (s : FQState) : List FQAction → Option FQState
  | [] => some s
  | a :: rest =>
      match fqStep K exec s a with
      | none => none
      | some s' => fqRun K exec s' rest

/-- A state in which `ProcessJobs` returns: the dispatch loop has exited
(all jobs dispatched, or an error observed) and `wg.Wait()` has seen every
worker finish. -/
def fqTerminal (s : FQState) : Prop :=
  s.inflight = [] ∧ (s.pending = [] ∨ s.firstErr.isSome)

/-- The value `ProcessJobs` returns at a terminal state. -/
def fqResult (s : FQState) : Option String :=
  s.firstErr

/-- The jobs of `l` whose executor call succeeds. -/
def okJobs (exec : Executor) (l : List FileJob) : List FileJob :=
  l.filter fun j => (exec j).2.isNone

/-- The jobs of `l` whose executor call fails. -/
def badJobs (exec : Executor) (l : List FileJob) : List FileJob :=
  l.filter fun j => (exec j).2.isSome

/-- Total bytes written by the executor over a job list. -/
def sumWritten (exec : Executor) (l : List FileJob) : Nat :=
  (l.map fun j => (exec j).1).sum

/-- The inductive invariant of a `ProcessJobs` run: the pending list is a
suffix of the job list, history and in-flight jobs together are a
permutation of the dispatched prefix, the counters aggregate exactly the
successfully completed jobs, the latched error is the error of the first
failed completion, and every recorded `updateFn` call reports the
counters of some completion-order prefix of the history. -/
def FQInv (jobs : List FileJob) (exec : Executor) (s : FQState) : Prop :=
  (∃ k, k ≤ jobs.length ∧ s.pending = jobs.drop k ∧
      (s.hist ++ s.inflight).Perm (jobs.take k)) ∧
  s.filesDone = (okJobs exec s.hist).length ∧
  s.bytesDone = sumWritten exec (okJobs exec s.hist) ∧
  s.firstErr = (badJobs exec s.hist).head?.bind (fun j => (exec j).2) ∧
  (∀ u ∈ s.updates, ∃ n, n ≤ s.hist.length ∧
      u = ((okJobs exec (s.hist.take n)).length,
           sumWritten exec (okJobs exec (s.hist.take n))))

/-! ## `processTask` glue (task_queue.go 173-374, 376-449) -/

/-- The executor `makeExecutor` returns, as a bytes/error function of the
job (the `useRsync` branches are unreachable here: the rsync fast path
returns before `makeExecutor` is called, so `useRsync` is always false at
this point).  Directory jobs perform `MkdirAll` and report 0 bytes; file
jobs perform the engine transfer and report `job.Size` bytes.  `errOf`
abstracts the outcome of the underlying SFTP/OS call for each job. -/
def makeExecutorModel (errOf : FileJob → Option String) : Executor :=
  fun j => (if j.isDir then 0 else j.size, errOf j)

/-- The `(jobs, totalSize)` pairs the scanning phase of `processTask` can
produce (task_queue.go lines 246-295), one constructor per `switch`
branch: directory kinds run the scanner, single-file kinds stat the file
(`size = none` models a failed stat, which leaves `totalSize` at 0) and
build one non-directory job. -/
inductive ScanProduced : TaskType → List FileJob × Nat → Prop where
  | uploadDir (root remoteRoot : String) (entries : List WalkEntry) :
      ScanProduced TaskType.uploadDirectory (ScanLocal root remoteRoot entries)
  | downloadDir (root localRoot : String) (entries : List RemoteWalkEntry) :
      ScanProduced TaskType.downloadDirectory (ScanRemote root localRoot entries)
  | uploadFile (name source dest : String) (size : Option Nat) :
      ScanProduced TaskType.uploadFile
        ([{ path := name, absPath := source, destPath := dest,
            size := size.getD 0, isDir := false }], size.getD 0)
  | downloadFile (name source dest : String) (size : Option Nat) :
      ScanProduced TaskType.downloadFile
        ([{ path := name, absPath := source, destPath := dest,
            size := size.getD 0, isDir := false }], size.getD 0)

/-- Task fields after the scanning phase succeeds (task_queue.go lines
305-313): totals recorded, state `Transferring`. -/
def setTotals (t : Task) (jobs : List FileJob) (total : Nat) : Task :=
  { t with
      state := TaskState.transferring
      totalFiles := jobs.length
      totalSize := total }

/-- Task counters as published by the `updateFn` closure of the file phase
(task_queue.go lines 368-371): `BytesTransferred := bytesDone` and
`CompletedFiles := filesDone + len(dirJobs)`.  The two fields are stored
by separate unsynchronised writes, so a concurrent `notify` may pair the
file count of one machine state with the byte count of another; hence the
two state arguments. -/
def applyCounters (t : Task) (dirLen : Nat) (s1 s2 : FQState) : Task :=
  { t with
      progressCompletedFiles := s1.filesDone + dirLen
      progressBytesTransferred := s2.bytesDone }

/-- All `TaskProgress` snapshots `processTask` (together with `QueueTask`
and `notify`) can emit for one task, over every schedule: one constructor
per send site in the source.  Parameters: the queued task's identity, the
`useRsync` flag's ingredients, the scan outcome, the per-job outcomes
`errOf`, and machine reachability for the sites inside the transfer
phase. -/
inductive Emitted (id : Nat) (tk : TaskType) (src dst nm : String)
    (errOf : FileJob → Option String) : TaskProgress → Prop where
  /-- The Pending snapshot published by `QueueTask` (line 148). -/
  | pendingSnap :
      Emitted id tk src dst nm errOf (buildProgress (mkTask id tk src dst nm))
  /-- Cancelled before start (lines 174-179). -/
  | cancelledBeforeStart :
      Emitted id tk src dst nm errOf
        (buildProgress { mkTask id tk src dst nm with state := TaskState.cancelled })
  /-- The Transferring snapshot of the rsync fast path (lines 218-219). -/
  | rsyncTransferring
      (hdir : tk = TaskType.uploadDirectory ∨ tk = TaskType.downloadDirectory) :
      Emitted id tk src dst nm errOf
        (buildProgress (rsyncDirSetup (mkTask id tk src dst nm)))
  /-- An rsync output line forwarded by the progress callback (lines 222-227). -/
  | rsyncLogLine (line : String)
      (hdir : tk = TaskType.uploadDirectory ∨ tk = TaskType.downloadDirectory) :
      Emitted id tk src dst nm errOf (rawLogSnap id TaskState.transferring line)
  /-- The terminal snapshot of the rsync fast path, via the deferred block. -/
  | rsyncTerminal (ctxCancelled : Bool) (result : Option String)
      (hdir : tk = TaskType.uploadDirectory ∨ tk = TaskType.downloadDirectory) :
      Emitted id tk src dst nm errOf
        (buildProgress (finishTask ctxCancelled result
          (rsyncDirSetup (mkTask id tk src dst nm))))
  /-- The Scanning snapshot (lines 234-235). -/
  | scanningSnap :
      Emitted id tk src dst nm errOf
        (buildProgress { mkTask id tk src dst nm with state := TaskState.scanning })
  /-- A "Scanning... N files found" log line (lines 250-255, 260-265). -/
  | scanningLogLine (n : Nat) :
      Emitted id tk src dst nm errOf
        (rawLogSnap id TaskState.scanning ("Scanning... " ++ toString n ++ " files found"))
  /-- Scanning failed (lines 297-303): state `Failed`, error recorded,
  totals still at their zero values. -/
  | scanFailed (e : String) :
      Emitted id tk src dst nm errOf
        (buildProgress { mkTask id tk src dst nm with
            state := TaskState.failed, err := some e })
  /-- After a failed scan returns, the deferred block still runs with a nil
  `result` and re-notifies with state `Completed` (lines 184-203). -/
  | scanFailedDefer (e : String) :
      Emitted id tk src dst nm errOf
        (buildProgress (finishTask false none
          { mkTask id tk src dst nm with
              state := TaskState.failed, err := some e }))
  /-- The Transferring snapshot after a successful scan (lines 312-313);
  also what the 500 ms ticker sees during the directory-creation phase
  (counters still zero). -/
  | transferringSnap (jobs : List FileJob) (total : Nat)
      (hscan : ScanProduced tk (jobs, total)) :
      Emitted id tk src dst nm errOf
        (buildProgress (setTotals (mkTask id tk src dst nm) jobs total))
  /-- The "Creating N directories..." log line (lines 354-358). -/
  | creatingDirsLogLine (n : Nat) :
      Emitted id tk src dst nm errOf
        (rawLogSnap id TaskState.transferring
          ("Creating " ++ toString n ++ " directories..."))
  /-- A ticker `notify` during the file phase (lines 324-337): the task
  counters hold values published by `updateFn` at possibly different
  machine states `s1` (file count) and `s2` (byte count) of the same run
  over the non-directory jobs. -/
  | tickerSnap (jobs : List FileJob) (total : Nat) (K : Nat)
      (tr1 tr2 : List FQAction) (s1 s2 : FQState)
      (hscan : ScanProduced tk (jobs, total))
      (h1 : fqRun K (makeExecutorModel errOf)
              (fqInit (jobs.filter fun j => !j.isDir)) tr1 = some s1)
      (h2 : fqRun K (makeExecutorModel errOf)
              (fqInit (jobs.filter fun j => !j.isDir)) tr2 = some s2) :
      Emitted id tk src dst nm errOf
        (buildProgress (applyCounters (setTotals (mkTask id tk src dst nm) jobs total)
          (jobs.filter fun j => j.isDir).length s1 s2))
  /-- The terminal snapshot of the non-rsync path, via the deferred block,
  from whatever counters the task held when the transfer phase ended. -/
  | terminalSnap (jobs : List FileJob) (total : Nat) (K : Nat)
      (tr1 tr2 : List FQAction) (s1 s2 : FQState)
      (ctxCancelled : Bool) (result : Option String)
      (hscan : ScanProduced tk (jobs, total))
      (h1 : fqRun K (makeExecutorModel errOf)
              (fqInit (jobs.filter fun j => !j.isDir)) tr1 = some s1)
      (h2 : fqRun K (makeExecutorModel errOf)
              (fqInit (jobs.filter fun j => !j.isDir)) tr2 = some s2) :
      Emitted id tk src dst nm errOf
        (buildProgress (finishTask ctxCancelled result
          (applyCounters (setTotals (mkTask id tk src dst nm) jobs total)
            (jobs.filter fun j => j.isDir).length s1 s2)))

/-! ## Concrete fixtures used by counterexamples and witnesses -/

/-- A connection configuration for concrete rsync-invocation checks. -/
def cfg0 : SSHConfigM := { host := "h", port := 22, username := "u" }

/-- A concrete download-directory task. -/
def tDownW : Task := mkTask 1 TaskType.downloadDirectory "/remote/data" "/home/u/data" "data"

/-- A task-queue state whose admission channel is full
(`maxTasks = 1`, so `taskChan` capacity is 2) and whose out-channel has
room. -/
def qFullW : TaskQueueState :=
  { settings := { disableRsync := true }
    maxTasks := 1
    tasks := [mkTask 1 TaskType.uploadFile "a" "b" "t1", mkTask 2 TaskType.uploadFile "c" "d" "t2"]
    taskChan := [mkTask 1 TaskType.uploadFile "a" "b" "t1", mkTask 2 TaskType.uploadFile "c" "d" "t2"]
    updateChan := { capacity := 10, buffer := [] }
    nextID := 3 }

/-- A full out-channel (capacity 1, one snapshot buffered). -/
def chFullW : Channel :=
  { capacity := 1, buffer := [rawLogSnap 7 TaskState.scanning "x"] }

/-- A task about to finish: transfer done, 6 of 6 bytes moved. -/
def tDoneW : Task :=
  { mkTask 3 TaskType.uploadFile "/tmp/src/a.txt" "/home/u/a.txt" "a.txt" with
      state := TaskState.transferring
      totalFiles := 1
      totalSize := 6
      progressCompletedFiles := 1
      progressBytesTransferred := 6 }

/-- The rsync fast path of a directory upload, completed without error:
`totalFiles = 1`, `totalSize = 0` (task_queue.go lines 214-215). -/
def tRsyncDoneW : Task :=
  finishTask false none
    (rsyncDirSetup (mkTask 1 TaskType.uploadDirectory "/tmp/t" "/home/u/t" "t"))

/-- Two concrete file jobs for `ProcessJobs` runs. -/
def jAW : FileJob :=
  { path := "a", absPath := "/s/a", destPath := "/d/a", size := 5, isDir := false }

/-- The failing job of the concrete `ProcessJobs` runs. -/
def jBW : FileJob :=
  { path := "b", absPath := "/s/b", destPath := "/d/b", size := 9, isDir := false }

/-- Concrete job list: one succeeding, one failing job. -/
def jobsW : List FileJob := [jAW, jBW]

/-- Concrete executor: fails on `jBW`, writes 5 bytes on `jAW`. -/
def execW : Executor := fun j => if j.path = "b" then (9, some "boom") else (5, none)

/-- A schedule that dispatches both jobs and completes them in order. -/
def trW : List FQAction :=
  [FQAction.dispatch, FQAction.dispatch, FQAction.complete 0, FQAction.complete 0]

/-- The final state of running `trW` on `jobsW` with `execW`. -/
def sW : FQState :=
  { pending := []
    inflight := []
    filesDone := 1
    bytesDone := 5
    firstErr := some "boom"
    updates := [(1, 5)]
    hist := [jAW, jBW] }

/-- A task in the transferring state for the fail-fast consequence. -/
def taskW : Task :=
  { mkTask 4 TaskType.uploadDirectory "/s" "/d" "s" with
      state := TaskState.transferring
      totalFiles := 2
      totalSize := 14 }

/-! ## Credential decryptor (storage/crypto.go)

`EncryptPrivateKey`/`DecryptPrivateKey` wrap Go library primitives:
PBKDF2-SHA256 key derivation and AES-256-GCM.  The GCM structure (counter
mode plus a GHASH tag, per NIST SP 800-38D with a 12-byte nonce and no
additional data) is embedded concretely below; the library primitives that
are external to this repository — the KDF and the keyed AES block
permutation — are parameters of every definition, so the theorems hold for
the real PBKDF2/AES instantiation.  Bytes are `Nat` values below 256;
blocks are `Nat` values below `2^128`. -/

/-- Big-endian byte list to a natural number. -/
def beBytesToNat (bs : List Nat) : Nat :=
  bs.foldl (fun acc b => acc * 256 + b % 256) 0

/-- Big-endian bytes of `n`, exactly `len` bytes. -/
def natToBeBytes : Nat → Nat → List Nat
  | 0, _ => []
  | len + 1, n => natToBeBytes len (n / 256) ++ [n % 256]

/-- The GCM reduction constant `R = 11100001 || 0^120`. -/
def gcmR : Nat := 0xe1 <<< 120

/-- One-bit-at-a-time carry-less multiplication in GF(2^128), processing
the bits of `x` most-significant first (`fuel` counts down from 128). -/
def gfMulLoop (x : Nat) : Nat → Nat → Nat → Nat
  | 0, z, _ => z
  | fuel + 1, z, v =>
      let z' := if (x >>> fuel) % 2 = 1 then z ^^^ v else z
      let v' := if v % 2 = 1 then (v >>> 1) ^^^ gcmR else v >>> 1
      gfMulLoop x fuel z' v'

/-- GHASH field multiplication. -/
def gfMul (x y : Nat) : Nat :=
  gfMulLoop x 128 0 y

/-- Split a byte list into 128-bit blocks, zero-padding the last one. -/
def toBlocks (l : List Nat) : List Nat :=
  if h : l = [] then []
  else
    have : (l.drop 16).length < l.length := by
      have h0 : 0 < l.length := List.length_pos.2 h
      simp only [List.length_drop]
      omega
    beBytesToNat (l.take 16 ++ List.replicate (16 - (l.take 16).length) 0) ::
      toBlocks (l.drop 16)
termination_by l.length

/-- The GHASH accumulation over a list of blocks. -/
def ghashBlocks (h : Nat) (y : Nat) (blocks : List Nat) : Nat :=
  blocks.foldl (fun acc b => gfMul (acc ^^^ b % 2 ^ 128) h) y

/-- GHASH of the ciphertext with no additional data: the ciphertext blocks
followed by the length block `0^64 || len(C) in bits`. -/
def gHASH (h : Nat) (c : List Nat) : Nat :=
  ghashBlocks h (ghashBlocks h 0 (toBlocks c)) [(c.length * 8) % 2 ^ 128]

/-- GCM's 32-bit counter increment on the low word of a block. -/
def inc32 (b : Nat) : Nat :=
  b / 2 ^ 32 * 2 ^ 32 + (b % 2 ^ 32 + 1) % 2 ^ 32

/-- The counter-mode block sequence starting at counter block `cb`. -/
def ctrBlocks (aesK : Nat → Nat) (cb : Nat) : Nat → List Nat
  | 0 => []
  | n + 1 => aesK cb :: ctrBlocks aesK (inc32 cb) n

/-- The first `len` keystream bytes for pre-counter block `j0`. -/
def keystream (aesK : Nat → Nat) (j0 : Nat) (len : Nat) : List Nat :=
  (((ctrBlocks aesK (inc32 j0) ((len + 15) / 16)).map (natToBeBytes 16)).flatten).take len

/-- Byte-wise exclusive or. -/
def xorBytes (a b : List Nat) : List Nat :=
  List.zipWith (fun x y => x ^^^ y) a b

/-- The pre-counter block for a 12-byte nonce: `J0 = nonce || 0x00000001`. -/
def j0Of (nonce : List Nat) : Nat :=
  beBytesToNat nonce * 2 ^ 32 + 1

/-- The authentication tag over a ciphertext: `GHASH_H(C) xor E_K(J0)`
with `H = E_K(0)`. -/
def gcmTag (aesK : Nat → Nat) (nonce c : List Nat) : List Nat :=
  natToBeBytes 16 (gHASH (aesK 0) c ^^^ aesK (j0Of nonce))

/-- Model of `gcm.Seal(nil, nonce, plaintext, nil)` for a 12-byte nonce:
counter-mode encryption, then the tag appended. -/
def gcmSeal (aesK : Nat → Nat) (nonce plaintext : List Nat) : List Nat :=
  xorBytes plaintext (keystream aesK (j0Of nonce) plaintext.length) ++
    gcmTag aesK nonce (xorBytes plaintext (keystream aesK (j0Of nonce) plaintext.length))

/-- Model of `gcm.Open(nil, nonce, ct, nil)`: reject when shorter than the tag,
recompute the tag over the ciphertext part and compare, then decrypt. -/
def gcmOpen (aesK : Nat → Nat) (nonce ct : List Nat) : Option (List Nat) :=
  if ct.length < 16 then none
  else if gcmTag aesK nonce (ct.take (ct.length - 16)) = ct.drop (ct.length - 16) then
    some (xorBytes (ct.take (ct.length - 16))
      (keystream aesK (j0Of nonce) (ct.take (ct.length - 16)).length))
  else none

/-- Model of `EncryptPrivateKey(keyContent, password)` (crypto.go lines 26-66):
rejects empty input or passphrase, derives a key from the passphrase and
the fresh 32-byte salt, seals with a fresh 12-byte nonce and returns
`nonce || ciphertext || tag` together with the salt.  The random salt and
nonce are explicit parameters here; `kdf` and `aes` stand for the
PBKDF2-SHA256 and keyed-AES-256 library primitives. -/
def EncryptPrivateKey (kdf : String → List Nat → List Nat)
    (aes : List Nat → Nat → Nat) (keyContent : List Nat) (password : String)
    (salt nonce : List Nat) : Option (List Nat × List Nat) :=
  if keyContent.length = 0 then none
  else if password = "" then none
  else some (nonce ++ gcmSeal (aes (kdf password salt)) nonce keyContent, salt)

/-- Model of `DecryptPrivateKey(encrypted, salt, password)` (crypto.go lines
70-112): size and emptiness checks, key derivation, nonce split, and
authenticated open. -/
def DecryptPrivateKey (kdf : String → List Nat → List Nat)
    (aes : List Nat → Nat → Nat) (encrypted salt : List Nat)
    (password : String) : Option (List Nat) :=
  if encrypted.length = 0 then none
  else if salt.length ≠ 32 then none
  else if password = "" then none
  else if encrypted.length < 12 then none
  else gcmOpen (aes (kdf password salt)) (encrypted.take 12) (encrypted.drop 12)

/-! ## Helper lemmas -/

theorem sumSizes_append (l1 l2 : List FileJob) :
    sumSizes (l1 ++ l2) = sumSizes l1 + sumSizes l2 := by
  simp [sumSizes]

theorem sumWritten_append (exec : Executor) (l1 l2 : List FileJob) :
    sumWritten exec (l1 ++ l2) = sumWritten exec l1 + sumWritten exec l2 := by
  simp [sumWritten]

theorem okJobs_append (exec : Executor) (l1 l2 : List FileJob) :
    okJobs exec (l1 ++ l2) = okJobs exec l1 ++ okJobs exec l2 := by
  simp [okJobs]

theorem badJobs_append (exec : Executor) (l1 l2 : List FileJob) :
    badJobs exec (l1 ++ l2) = badJobs exec l1 ++ badJobs exec l2 := by
  simp [badJobs]

/-- Generic invariant for `ScanLocal`: folding more entries preserves
"`total` is the sum of the non-directory job sizes". -/
theorem scanLocal_total_inv (baseDir remoteRoot : String) :
    ∀ (entries : List WalkEntry) (jobs : List FileJob) (total : Nat),
      total = sumSizes (jobs.filter fun j => !j.isDir) →
      (entries.foldl (scanLocalStep baseDir remoteRoot) (jobs, total)).2 =
        sumSizes ((entries.foldl (scanLocalStep baseDir remoteRoot) (jobs, total)).1.filter
          fun j => !j.isDir) := by
  intro entries
  induction entries with
  | nil => intro jobs total h; simpa using h
  | cons e rest ih =>
      intro jobs total h
      have hstep :
          (scanLocalStep baseDir remoteRoot (jobs, total) e).2 =
            sumSizes ((scanLocalStep baseDir remoteRoot (jobs, total) e).1.filter
              fun j => !j.isDir) := by
        cases hl : e.link <;>
          simp [scanLocalStep, hl] <;>
          cases hd : e.isDir <;>
            simp [List.filter_append, sumSizes_append, hd, h, sumSizes]
      have := ih (scanLocalStep baseDir remoteRoot (jobs, total) e).1
        (scanLocalStep baseDir remoteRoot (jobs, total) e).2 hstep
      simpa [List.foldl_cons] using this

/-- Generic invariant for `ScanRemote`. -/
theorem scanRemote_total_inv (baseDir localRoot : String) :
    ∀ (entries : List RemoteWalkEntry) (jobs : List FileJob) (total : Nat),
      total = sumSizes (jobs.filter fun j => !j.isDir) →
      (entries.foldl (scanRemoteStep baseDir localRoot) (jobs, total)).2 =
        sumSizes ((entries.foldl (scanRemoteStep baseDir localRoot) (jobs, total)).1.filter
          fun j => !j.isDir) := by
  intro entries
  induction entries with
  | nil => intro jobs total h; simpa using h
  | cons e rest ih =>
      intro jobs total h
      have hstep :
          (scanRemoteStep baseDir localRoot (jobs, total) e).2 =
            sumSizes ((scanRemoteStep baseDir localRoot (jobs, total) e).1.filter
              fun j => !j.isDir) := by
        cases he : e.walkErr <;>
          simp [scanRemoteStep, he] <;>
          cases hd : e.isDir <;>
            simp [List.filter_append, sumSizes_append, hd, h, sumSizes]
      have := ih (scanRemoteStep baseDir localRoot (jobs, total) e).1
        (scanRemoteStep baseDir localRoot (jobs, total) e).2 hstep
      simpa [List.foldl_cons] using this

/-- The total returned by `ScanLocal` is the sum of its non-directory job
sizes. -/
theorem scanLocal_total (root remoteRoot : String) (entries : List WalkEntry) :
    (ScanLocal root remoteRoot entries).2 =
      sumSizes ((ScanLocal root remoteRoot entries).1.filter fun j => !j.isDir) := by
  simpa [ScanLocal] using
    scanLocal_total_inv (dirname root) remoteRoot entries [] 0 (by simp [sumSizes])

/-- The total returned by `ScanRemote` is the sum of its non-directory job
sizes. -/
theorem scanRemote_total (root localRoot : String) (entries : List RemoteWalkEntry) :
    (ScanRemote root localRoot entries).2 =
      sumSizes ((ScanRemote root localRoot entries).1.filter fun j => !j.isDir) := by
  simpa [ScanRemote] using
    scanRemote_total_inv (dirname root) localRoot entries [] 0 (by simp [sumSizes])

/-- Every `(jobs, totalSize)` pair the scanning phase can produce satisfies
the "total = sum of non-directory sizes" relation. -/
theorem scanProduced_total {tk : TaskType} {jt : List FileJob × Nat}
    (h : ScanProduced tk jt) :
    jt.2 = sumSizes (jt.1.filter fun j => !j.isDir) := by
  cases h with
  | uploadDir root remoteRoot entries => exact scanLocal_total root remoteRoot entries
  | downloadDir root localRoot entries => exact scanRemote_total root localRoot entries
  | uploadFile name source dest size => simp [sumSizes]
  | downloadFile name source dest size => simp [sumSizes]

/-- Removing the `i`-th element and putting it back in front is a
permutation. -/
theorem cons_eraseIdx_perm :
    ∀ (l : List FileJob) (i : Nat) (a : FileJob),
      l[i]? = some a → (a :: l.eraseIdx i).Perm l
  | [], i, a, h => by simp at h
  | b :: t, 0, a, h => by
      simp at h
      subst h
      simp
  | b :: t, i + 1, a, h => by
      simp at h
      have ih := cons_eraseIdx_perm t i a h
      simpa [List.eraseIdx] using (List.Perm.swap b a (t.eraseIdx i)).trans (ih.cons b)

/-- The machine invariant holds initially. -/
theorem fqInv_init (jobs : List FileJob) (exec : Executor) :
    FQInv jobs exec (fqInit jobs) := by
  refine ⟨⟨0, Nat.zero_le _, by simp [fqInit], by simp [fqInit]⟩, ?_, ?_, ?_, ?_⟩ <;>
    simp [fqInit, okJobs, badJobs, sumWritten]

/-- Every enabled step preserves the machine invariant. -/
theorem fqInv_step {jobs : List FileJob} {exec : Executor} {K : Nat}
    {s s' : FQState} {a : FQAction}
    (hinv : FQInv jobs exec s) (hstep : fqStep K exec s a = some s') :
    FQInv jobs exec s' := by
  obtain ⟨⟨k, hk, hpend, hperm⟩, hfiles, hbytes, herr, hupd⟩ := hinv
  cases a with
  | dispatch =>
      cases hp : s.pending with
      | nil => simp [fqStep, hp] at hstep
      | cons j rest =>
          cases he : s.firstErr with
          | some e0 => simp [fqStep, hp, he] at hstep
          | none =>
              by_cases hK : s.inflight.length < K
              · simp [fqStep, hp, he, hK] at hstep
                subst hstep
                have hklt : k < jobs.length := by
                  by_contra hlt
                  push_neg at hlt
                  rw [hpend, List.drop_eq_nil_of_le hlt] at hp
                  exact List.noConfusion hp
                have hdk : jobs.drop k = jobs[k] :: jobs.drop (k + 1) :=
                  List.drop_eq_getElem_cons hklt
                rw [hpend, hdk] at hp
                cases hp
                refine ⟨⟨k + 1, hklt, rfl, ?_⟩, hfiles, hbytes, by rw [← he]; exact herr, hupd⟩
                have htake : jobs.take (k + 1) = jobs.take k ++ [jobs[k]] := by
                  rw [List.take_succ, List.getElem?_eq_getElem hklt]
                  rfl
                rw [htake, ← List.append_assoc]
                exact hperm.append_right [jobs[k]]
              · simp [fqStep, hp, he, hK] at hstep
  | complete i =>
      cases hj : s.inflight[i]? with
      | none => simp [fqStep, hj] at hstep
      | some j =>
          have hmid : ((j :: s.inflight.eraseIdx i)).Perm s.inflight :=
            cons_eraseIdx_perm s.inflight i j hj
          cases hx : exec j with
          | mk w oe =>
            have hconsv : ((s.hist ++ [j]) ++ s.inflight.eraseIdx i).Perm (jobs.take k) := by
              have h1 : ((s.hist ++ [j]) ++ s.inflight.eraseIdx i) =
                  s.hist ++ (j :: s.inflight.eraseIdx i) := by
                simp
              rw [h1]
              exact ((List.Perm.append_left s.hist hmid).trans hperm)
            cases oe with
            | none =>
                simp [fqStep, hj, hx] at hstep
                subst hstep
                have hok : okJobs exec (s.hist ++ [j]) = okJobs exec s.hist ++ [j] := by
                  simp [okJobs_append, okJobs, hx]
                have hbad : badJobs exec (s.hist ++ [j]) = badJobs exec s.hist := by
                  simp [badJobs_append, badJobs, hx]
                refine ⟨⟨k, hk, hpend, hconsv⟩, ?_, ?_, ?_, ?_⟩
                · simp [hok, hfiles]
                · simp [hok, sumWritten_append, hbytes, sumWritten, hx]
                · simp [hbad, herr]
                · intro u hu
                  rcases List.mem_append.1 hu with hold | hnew
                  · obtain ⟨n, hn, hueq⟩ := hupd u hold
                    refine ⟨n, ?_, ?_⟩
                    · simp
                      exact Nat.le_succ_of_le hn
                    · rw [List.take_append_of_le_length hn]
                      exact hueq
                  · have hu' : u = (s.filesDone + 1, s.bytesDone + w) := by
                      simpa using hnew
                    refine ⟨(s.hist ++ [j]).length, Nat.le_refl _, ?_⟩
                    rw [List.take_length, hok, hu']
                    simp [hfiles, hbytes, sumWritten_append, sumWritten, hx]
            | some e =>
                simp [fqStep, hj, hx] at hstep
                subst hstep
                have hok : okJobs exec (s.hist ++ [j]) = okJobs exec s.hist := by
                  simp [okJobs_append, okJobs, hx]
                have hbad : badJobs exec (s.hist ++ [j]) = badJobs exec s.hist ++ [j] := by
                  simp [badJobs_append, badJobs, hx]
                refine ⟨⟨k, hk, hpend, hconsv⟩, ?_, ?_, ?_, ?_⟩
                · simp [hok, hfiles]
                · simp [hok, hbytes]
                · rw [hbad]
                  cases hbj : badJobs exec s.hist with
                  | nil =>
                      rw [hbj] at herr
                      simp at herr
                      simp [herr, hx]
                  | cons b tl =>
                      rw [hbj] at herr
                      simp at herr
                      have hbmem : b ∈ badJobs exec s.hist := by
                        rw [hbj]; exact List.mem_cons_self b tl
                      have hbsome : (exec b).2.isSome := (List.mem_filter.1 hbmem).2
                      cases hfe : s.firstErr with
                      | none =>
                          rw [hfe] at herr
                          rw [← herr] at hbsome
                          simp at hbsome
                      | some e0 =>
                          rw [hfe] at herr
                          simp [herr]
                · intro u hu
                  obtain ⟨n, hn, hueq⟩ := hupd u hu
                  refine ⟨n, ?_, ?_⟩
                  · simp
                    exact Nat.le_succ_of_le hn
                  · rw [List.take_append_of_le_length hn]
                    exact hueq

/-- The machine invariant holds in every state a schedule can reach. -/
theorem fqInv_run {jobs : List FileJob} {exec : Executor} {K : Nat} :
    ∀ {tr : List FQAction} {s s' : FQState},
      fqRun K exec s tr = some s' → FQInv jobs exec s → FQInv jobs exec s' := by
  intro tr
  induction tr with
  | nil =>
      intro s s' h hinv
      simp [fqRun] at h
      exact h ▸ hinv
  | cons a rest ih =>
      intro s s' h hinv
      unfold fqRun at h
      cases hst : fqStep K exec s a with
      | none => rw [hst] at h; exact absurd h (by simp)
      | some s1 => rw [hst] at h; exact ih h (fqInv_step hinv hst)

/-- The machine invariant holds in every state reachable from the initial
state. -/
theorem fqInv_reach {jobs : List FileJob} {exec : Executor} {K : Nat}
    {tr : List FQAction} {s : FQState}
    (h : fqRun K exec (fqInit jobs) tr = some s) : FQInv jobs exec s :=
  fqInv_run h (fqInv_init jobs exec)

/-- Sum of written bytes is monotone under sub-multisets. -/
theorem sumWritten_le_of_subperm (exec : Executor) {l1 l2 : List FileJob}
    (h : List.Subperm l1 l2) : sumWritten exec l1 ≤ sumWritten exec l2 := by
  obtain ⟨l, hperm, hsub⟩ := h
  have h1 : sumWritten exec l = sumWritten exec l1 := by
    simpa [sumWritten] using (hperm.map (fun j => (exec j).1)).sum_eq
  have h2 : sumWritten exec l ≤ sumWritten exec l2 := by
    simpa [sumWritten] using ((hsub.map (fun j => (exec j).1)).sum_le_sum (by simp))
  omega

/-- On non-directory jobs the `makeExecutor` executor writes exactly the
job size. -/
theorem sumWritten_eq_sumSizes (errOf : FileJob → Option String) {l : List FileJob}
    (hnd : ∀ j ∈ l, j.isDir = false) :
    sumWritten (makeExecutorModel errOf) l = sumSizes l := by
  unfold sumWritten sumSizes
  congr 1
  apply List.map_congr_left
  intro j hj
  simp [makeExecutorModel, hnd j hj]

/-- In any reachable state of a run over non-directory jobs, the counters
are bounded by the job count and the total job size. -/
theorem fq_counters_le {jobs : List FileJob} {errOf : FileJob → Option String}
    {K : Nat} {tr : List FQAction} {s : FQState}
    (h : fqRun K (makeExecutorModel errOf) (fqInit jobs) tr = some s)
    (hnd : ∀ j ∈ jobs, j.isDir = false) :
    s.filesDone ≤ jobs.length ∧ s.bytesDone ≤ sumSizes jobs := by
  obtain ⟨⟨k, hk, hpend, hperm⟩, hfiles, hbytes, herr, hupd⟩ := fqInv_reach h
  have hsubl : List.Sublist (okJobs (makeExecutorModel errOf) s.hist)
      (s.hist ++ s.inflight) :=
    (List.filter_sublist s.hist).trans (List.sublist_append_left s.hist s.inflight)
  have hsub : List.Subperm (okJobs (makeExecutorModel errOf) s.hist) jobs :=
    (hsubl.subperm.trans hperm.subperm).trans (List.take_sublist k jobs).subperm
  constructor
  · rw [hfiles]
    exact hsub.length_le
  · rw [hbytes]
    calc sumWritten (makeExecutorModel errOf) (okJobs (makeExecutorModel errOf) s.hist)
        ≤ sumWritten (makeExecutorModel errOf) jobs :=
          sumWritten_le_of_subperm (makeExecutorModel errOf) hsub
      _ = sumSizes jobs := sumWritten_eq_sumSizes errOf hnd

/-- The derived percentage never exceeds 100 when the numerator is bounded
by the denominator. -/
theorem percentageOf_le_100 {bytes total : Nat} (h : bytes ≤ total) :
    percentageOf bytes total ≤ 100 := by
  by_cases ht : 0 < total
  · have hle : bytes * 100 / total ≤ total * 100 / total :=
      Nat.div_le_div_right (Nat.mul_le_mul_right 100 h)
    rw [Nat.mul_div_cancel_left 100 ht] at hle
    simpa [percentageOf, ht] using hle
  · simp [percentageOf, ht]

/-- The counter values any file-phase machine state can contribute to a
snapshot stay within the scan totals. -/
theorem counters_within_totals {tk : TaskType} {jobs : List FileJob} {total : Nat}
    {errOf : FileJob → Option String} {K1 K2 : Nat} {tr1 tr2 : List FQAction}
    {s1 s2 : FQState}
    (hscan : ScanProduced tk (jobs, total))
    (h1 : fqRun K1 (makeExecutorModel errOf) (fqInit (jobs.filter fun j => !j.isDir)) tr1 = some s1)
    (h2 : fqRun K2 (makeExecutorModel errOf) (fqInit (jobs.filter fun j => !j.isDir)) tr2 = some s2) :
    s1.filesDone + (jobs.filter fun j => j.isDir).length ≤ jobs.length ∧
    s2.bytesDone ≤ total := by
  have hnd : ∀ j ∈ (jobs.filter fun j => !j.isDir), j.isDir = false := by
    intro j hj
    simpa using (List.mem_filter.1 hj).2
  have hc1 := fq_counters_le h1 hnd
  have hc2 := fq_counters_le h2 hnd
  have hpart : jobs.length =
      (jobs.filter fun j => j.isDir).length + (jobs.filter fun j => !j.isDir).length :=
    List.length_eq_length_filter_add _
  have htot : total = sumSizes (jobs.filter fun j => !j.isDir) := scanProduced_total hscan
  constructor
  · have := hc1.1
    omega
  · rw [htot]
    exact hc2.2

/-! ## Claim theorems -/

/-- C9: for every completed scan, `ScanLocal` and `ScanRemote` return a
`totalBytes` value equal to the sum of `Size` over exactly those returned
`FileJob`s whose `IsDir` is false (directory jobs contribute nothing). -/
theorem C9_scanners_total_is_sum_of_file_sizes
    (rootL remoteRoot rootR localRoot : String)
    (entriesL : List WalkEntry) (entriesR : List RemoteWalkEntry) :
    (ScanLocal rootL remoteRoot entriesL).2 =
      sumSizes ((ScanLocal rootL remoteRoot entriesL).1.filter fun j => !j.isDir) ∧
    (ScanRemote rootR localRoot entriesR).2 =
      sumSizes ((ScanRemote rootR localRoot entriesR).1.filter fun j => !j.isDir) :=
  ⟨scanLocal_total rootL remoteRoot entriesL, scanRemote_total rootR localRoot entriesR⟩

/-- C1: the claim says a download-directory task run through the External
engine invokes `downloadFile`, so the rsync SRC is the remote
`user@host:path` form and the DST the local path.  The code
(task_queue.go line 220) instead calls `engine.UploadFile(task.Source,
task.Dest)` for both directory task types, so for a download-directory
task the spawned rsync gets the remote path as a local SRC and the local
destination wrapped in the remote form as DST — the transfer direction is
reversed.  This theorem evaluates the embedded code at that failing
input. -/
theorem C1_rsync_download_dir_direction_reversed :
    useRsync false TaskType.downloadDirectory = true ∧
    processTaskRsyncCall cfg0 tDownW =
      { src := "/remote/data", dst := "u@h:/home/u/data" } ∧
    rsyncDownloadFile cfg0 tDownW.source tDownW.dest =
      { src := "u@h:/remote/data", dst := "/home/u/data" } ∧
    processTaskRsyncCall cfg0 tDownW ≠ rsyncDownloadFile cfg0 tDownW.source tDownW.dest := by
  refine ⟨rfl, rfl, rfl, ?_⟩
  decide

/-- C2 counterexample: with `DisableRsync = false` and rsync on PATH, a
single-file upload task is run by the External (rsync) engine, not the
Native one — `NewTransferEngine` never consults the task kind. -/
theorem C2_counterexample_single_file_task_gets_rsync :
    taskEngine false true TaskType.uploadFile = EngineKind.rsyncEngine ∧
    EngineKind.rsyncEngine ≠ EngineKind.internalEngine :=
  ⟨rfl, by decide⟩

/-- C2 (amended): engine selection depends only on `DisableRsync` and on
rsync availability, never on the task kind; with rsync enabled and
available every task — single-file tasks included — gets the External
engine, and the Native engine is used exactly when rsync is disabled or
missing from PATH. -/
theorem C2_engine_selection_ignores_task_kind :
    (∀ (d p : Bool) (tk tk' : TaskType), taskEngine d p tk = taskEngine d p tk') ∧
    (∀ tk, taskEngine false true tk = EngineKind.rsyncEngine) ∧
    (∀ tk, taskEngine false false tk = EngineKind.internalEngine) ∧
    (∀ (p : Bool) (tk : TaskType), taskEngine true p tk = EngineKind.internalEngine) :=
  ⟨fun _ _ _ _ => rfl, fun _ => rfl, fun _ => rfl, fun _ _ => rfl⟩

/-- C3 counterexample: a concrete state with a full admission channel —
`QueueTask` returns the queue-full error, yet the task list has grown, the
ID counter has advanced and the Pending snapshot sits on the out-channel. -/
theorem C3_counterexample_full_queue_still_mutates :
    (QueueTask qFullW TaskType.uploadFile "s" "d" "n").1 = none ∧
    (QueueTask qFullW TaskType.uploadFile "s" "d" "n").2.tasks ≠ qFullW.tasks ∧
    (QueueTask qFullW TaskType.uploadFile "s" "d" "n").2.nextID ≠ qFullW.nextID ∧
    (QueueTask qFullW TaskType.uploadFile "s" "d" "n").2.updateChan.buffer ≠
      qFullW.updateChan.buffer := by
  decide

/-- C3 (amended): when the admission channel (capacity
`2 × maxConcurrentTasks`) is full, `QueueTask` returns the queue-full
error, but only after mutating state: the task has been appended to the
task list, the next-ID counter advanced, and the Pending snapshot already
published on the out-channel (subject to its own non-blocking send). -/
theorem C3_queueTask_full_rejects_after_mutation
    (q : TaskQueueState) (tt : TaskType) (src dst nm : String)
    (hfull : ¬ q.taskChan.length < q.maxTasks * 2) :
    (QueueTask q tt src dst nm).1 = none ∧
    (QueueTask q tt src dst nm).2.tasks = q.tasks ++ [mkTask q.nextID tt src dst nm] ∧
    (QueueTask q tt src dst nm).2.nextID = q.nextID + 1 ∧
    (QueueTask q tt src dst nm).2.updateChan =
      notify (mkTask q.nextID tt src dst nm) q.updateChan := by
  unfold QueueTask
  simp [hfull]

/-- C3 witness: the amended theorem applied to the concrete full queue. -/
theorem C3_witness :
    (¬ qFullW.taskChan.length < qFullW.maxTasks * 2) ∧
    (QueueTask qFullW TaskType.uploadFile "s" "d" "n").1 = none ∧
    (QueueTask qFullW TaskType.uploadFile "s" "d" "n").2.nextID = qFullW.nextID + 1 := by
  have hfull : ¬ qFullW.taskChan.length < qFullW.maxTasks * 2 := by decide
  have h := C3_queueTask_full_rejects_after_mutation qFullW TaskType.uploadFile "s" "d" "n" hfull
  exact ⟨hfull, h.1, h.2.2.1⟩

/-- C4 counterexample: a concrete completed task and a concrete full
out-channel — the terminal snapshot is dropped (the channel is returned
unchanged and the snapshot is not in its buffer), contradicting the
claimed blocking send for terminal states. -/
theorem C4_counterexample_terminal_snapshot_dropped :
    (finishTask false none tDoneW).state = TaskState.completed ∧
    notify (finishTask false none tDoneW) chFullW = chFullW ∧
    buildProgress (finishTask false none tDoneW) ∉ chFullW.buffer := by
  decide

/-- C4 (amended): every snapshot — terminal states included — is sent with
the same non-blocking send in `notify`: when the out-channel has room the
snapshot is appended, and when it is full the snapshot is dropped
regardless of the task's state. -/
theorem C4_notify_is_nonblocking_for_all_states (t : Task) (ch : Channel) :
    (ch.buffer.length < ch.capacity →
      notify t ch = { ch with buffer := ch.buffer ++ [buildProgress t] }) ∧
    (¬ ch.buffer.length < ch.capacity → notify t ch = ch) := by
  constructor <;> intro h <;> simp [notify, trySend, h]

/-- C4 witness: the amended theorem applied to a concrete terminal task and
a concrete full channel. -/
theorem C4_witness :
    (¬ chFullW.buffer.length < chFullW.capacity) ∧
    notify tRsyncDoneW chFullW = chFullW := by
  have hfull : ¬ chFullW.buffer.length < chFullW.capacity := by decide
  exact ⟨hfull, (C4_notify_is_nonblocking_for_all_states tRsyncDoneW chFullW).2 hfull⟩

/-- C7 counterexample: the rsync fast path sets `totalSize = 0`
(task_queue.go line 215); when such a task completes without error, the
emitted terminal snapshot recomputes the percentage in `notify` and gets
0, not the claimed 100. -/
theorem C7_counterexample_completed_with_zero_total :
    tRsyncDoneW.state = TaskState.completed ∧
    (buildProgress tRsyncDoneW).percentage = 0 ∧
    (buildProgress tRsyncDoneW).percentage ≠ 100 := by
  decide

/-- C7 (amended): when the transfer phase finishes with no error and no
cancellation, the terminal snapshot has state completed,
`completedFiles = totalFiles` and `bytesTransferred = totalBytes`; its
percentage is 100 when `totalBytes > 0` and 0 when `totalBytes = 0`
(because `notify` recomputes it rather than using the stored 100). -/
theorem C7_completed_terminal_snapshot_fields (t : Task) :
    (buildProgress (finishTask false none t)).state = TaskState.completed ∧
    (buildProgress (finishTask false none t)).completedFiles = t.totalFiles ∧
    (buildProgress (finishTask false none t)).bytesTransferred = t.totalSize ∧
    (0 < t.totalSize → (buildProgress (finishTask false none t)).percentage = 100) ∧
    (t.totalSize = 0 → (buildProgress (finishTask false none t)).percentage = 0) := by
  refine ⟨rfl, rfl, rfl, ?_, ?_⟩
  · intro h
    simp [buildProgress, finishTask, percentageOf, h, Nat.mul_div_cancel_left 100 h]
  · intro h
    simp [buildProgress, finishTask, percentageOf, h]

/-- C7 witness: the amended theorem applied to a concrete finished task
with 6 of 6 bytes transferred. -/
theorem C7_witness :
    0 < tDoneW.totalSize ∧
    (buildProgress (finishTask false none tDoneW)).percentage = 100 ∧
    (buildProgress (finishTask false none tDoneW)).completedFiles = tDoneW.totalFiles := by
  have hpos : 0 < tDoneW.totalSize := by decide
  have h := C7_completed_terminal_snapshot_fields tDoneW
  exact ⟨hpos, h.2.2.2.1 hpos, h.2.1⟩

/-- C6: in `FileQueue.ProcessJobs` the first error is latched, dispatch is
disabled once an error is observed, and when exactly one executor call
fails the returned value is that call's error; consequently the task's
deferred terminal update (with the context not cancelled) puts the task in
the failed state and the terminal snapshot carries exactly that error
string. -/
theorem C6_processJobs_fail_fast (jobs : List FileJob) (exec : Executor)
    (K : Nat) (tr : List FQAction) (s : FQState) (t : Task)
    (jstar : FileJob) (e : String)
    (hrun : fqRun K exec (fqInit jobs) tr = some s)
    (hterm : fqTerminal s)
    (hone : badJobs exec jobs = [jstar])
    (herrj : (exec jstar).2 = some e) :
    fqResult s = some e ∧
    (∀ s' : FQState, s'.firstErr.isSome → fqStep K exec s' FQAction.dispatch = none) ∧
    (finishTask false (fqResult s) t).state = TaskState.failed ∧
    (buildProgress (finishTask false (fqResult s) t)).error = some e := by
  obtain ⟨⟨k, hk, hpend, hperm⟩, hfiles, hbytes, herr, hupd⟩ := fqInv_reach hrun
  obtain ⟨hinf, hpe⟩ := hterm
  have hfe : s.firstErr = some e := by
    rcases hpe with hpnil | hfsome
    · have hdnil : jobs.drop k = [] := by rw [← hpend]; exact hpnil
      have hkge : jobs.length ≤ k := by
        by_contra hlt
        push_neg at hlt
        rw [List.drop_eq_getElem_cons hlt] at hdnil
        exact List.noConfusion hdnil
      have htk : jobs.take k = jobs := List.take_of_length_le hkge
      rw [hinf, List.append_nil, htk] at hperm
      have hbp : (badJobs exec s.hist).Perm (badJobs exec jobs) := hperm.filter _
      rw [hone] at hbp
      have hbeq : badJobs exec s.hist = [jstar] := List.perm_singleton.1 hbp
      rw [hbeq] at herr
      simpa [herrj] using herr
    · cases hbj : badJobs exec s.hist with
      | nil =>
          rw [hbj] at herr
          simp at herr
          rw [herr] at hfsome
          simp at hfsome
      | cons b tl =>
          rw [hbj] at herr
          simp at herr
          have hbmem : b ∈ badJobs exec s.hist := by
            rw [hbj]; exact List.mem_cons_self b tl
          have hbhist : b ∈ s.hist := (List.mem_filter.1 hbmem).1
          have hbjobs : b ∈ jobs := by
            have h1 : b ∈ s.hist ++ s.inflight := List.mem_append.2 (Or.inl hbhist)
            have h2 : b ∈ jobs.take k := hperm.mem_iff.1 h1
            exact List.take_subset k jobs h2
          have hbbad : b ∈ badJobs exec jobs :=
            List.mem_filter.2 ⟨hbjobs, (List.mem_filter.1 hbmem).2⟩
          rw [hone] at hbbad
          have hbeq : b = jstar := by simpa using hbbad
          rw [herr, hbeq, herrj]
  refine ⟨hfe, ?_, ?_, ?_⟩
  · intro s' hs'
    cases hsp : s'.pending with
    | nil => simp [fqStep, hsp]
    | cons j rest => simp [fqStep, hsp, hs']
  · simp [fqResult, hfe, finishTask]
  · simp [fqResult, hfe, finishTask, buildProgress]

/-- C6 witness: a concrete two-job run in which exactly the second job
fails; the theorem is applied to it with every hypothesis discharged by
evaluation. -/
theorem C6_witness :
    fqRun 2 execW (fqInit jobsW) trW = some sW ∧
    fqTerminal sW ∧
    badJobs execW jobsW = [jBW] ∧
    fqResult sW = some "boom" ∧
    (finishTask false (fqResult sW) taskW).state = TaskState.failed ∧
    (buildProgress (finishTask false (fqResult sW) taskW)).error = some "boom" := by
  have hrun : fqRun 2 execW (fqInit jobsW) trW = some sW := by decide
  have hterm : fqTerminal sW := ⟨rfl, Or.inl rfl⟩
  have hone : badJobs execW jobsW = [jBW] := by decide
  have h := C6_processJobs_fail_fast jobsW execW 2 trW sW taskW jBW "boom"
    hrun hterm hone (by decide)
  exact ⟨hrun, hterm, hone, h.1, h.2.2.1, h.2.2.2⟩

/-- C10: in any reachable state of a `ProcessJobs` run, the aggregate
counters reflect exactly the successfully completed jobs: a job whose
executor returned an error is excluded from `okJobs` (so it contributes
nothing to `filesDone` or `bytesDone`), and every recorded `onUpdate`
invocation reports the counters of a completion-order prefix restricted to
successful jobs. -/
theorem C10_failed_jobs_contribute_nothing (jobs : List FileJob) (exec : Executor)
    (K : Nat) (tr : List FQAction) (s : FQState)
    (hrun : fqRun K exec (fqInit jobs) tr = some s) :
    s.filesDone = (okJobs exec s.hist).length ∧
    s.bytesDone = sumWritten exec (okJobs exec s.hist) ∧
    (∀ j ∈ s.hist, (exec j).2.isSome → j ∉ okJobs exec s.hist) ∧
    (∀ u ∈ s.updates, ∃ n, n ≤ s.hist.length ∧
        u = ((okJobs exec (s.hist.take n)).length,
             sumWritten exec (okJobs exec (s.hist.take n)))) := by
  obtain ⟨hcons, hfiles, hbytes, herr, hupd⟩ := fqInv_reach hrun
  refine ⟨hfiles, hbytes, ?_, hupd⟩
  intro j hj hsome hmem
  have hnone := (List.mem_filter.1 hmem).2
  simp at hnone
  rw [hnone] at hsome
  simp at hsome

/-- C10 witness: the theorem applied to the concrete two-job run; the
failing job is not among the aggregated jobs. -/
theorem C10_witness :
    fqRun 2 execW (fqInit jobsW) trW = some sW ∧
    sW.filesDone = (okJobs execW sW.hist).length ∧
    sW.bytesDone = sumWritten execW (okJobs execW sW.hist) ∧
    jBW ∉ okJobs execW sW.hist := by
  have hrun : fqRun 2 execW (fqInit jobsW) trW = some sW := by decide
  have h := C10_failed_jobs_contribute_nothing jobsW execW 2 trW sW hrun
  refine ⟨hrun, h.1, h.2.1, h.2.2.1 jBW ?_ ?_⟩
  · decide
  · decide

/-- C8: every snapshot a task can emit satisfies
`completedFiles ≤ totalFiles`, satisfies
`bytesTransferred ≤ totalSize` whenever `totalSize > 0`, and its derived
percentage never exceeds 100. -/
theorem C8_emitted_snapshot_bounds (id : Nat) (tk : TaskType) (src dst nm : String)
    (errOf : FileJob → Option String) (p : TaskProgress)
    (hp : Emitted id tk src dst nm errOf p) :
    p.completedFiles ≤ p.totalFiles ∧
    (0 < p.totalSize → p.bytesTransferred ≤ p.totalSize) ∧
    p.percentage ≤ 100 := by
  cases hp with
  | pendingSnap =>
      simp [buildProgress, mkTask, percentageOf]
  | cancelledBeforeStart =>
      simp [buildProgress, mkTask, percentageOf]
  | rsyncTransferring hdir =>
      simp [buildProgress, rsyncDirSetup, mkTask, percentageOf]
  | rsyncLogLine line hdir =>
      simp [rawLogSnap]
  | rsyncTerminal ctxCancelled result hdir =>
      cases result with
      | none =>
          simp [buildProgress, finishTask, rsyncDirSetup, mkTask, percentageOf]
      | some e =>
          cases ctxCancelled <;>
            simp [buildProgress, finishTask, rsyncDirSetup, mkTask, percentageOf]
  | scanningSnap =>
      simp [buildProgress, mkTask, percentageOf]
  | scanningLogLine n =>
      simp [rawLogSnap]
  | scanFailed e =>
      simp [buildProgress, mkTask, percentageOf]
  | scanFailedDefer e =>
      simp [buildProgress, finishTask, mkTask, percentageOf]
  | transferringSnap jobs total hscan =>
      simp [buildProgress, setTotals, mkTask, percentageOf]
  | creatingDirsLogLine n =>
      simp [rawLogSnap]
  | tickerSnap jobs total K tr1 tr2 s1 s2 hscan h1 h2 =>
      have hb := counters_within_totals hscan h1 h2
      refine ⟨?_, fun _ => ?_, ?_⟩
      · simpa [buildProgress, applyCounters, setTotals, mkTask] using hb.1
      · simpa [buildProgress, applyCounters, setTotals, mkTask] using hb.2
      · simpa [buildProgress, applyCounters, setTotals, mkTask] using
          percentageOf_le_100 hb.2
  | terminalSnap jobs total K tr1 tr2 s1 s2 ctxCancelled result hscan h1 h2 =>
      have hb := counters_within_totals hscan h1 h2
      cases result with
      | none =>
          refine ⟨?_, fun _ => ?_, ?_⟩
          · simp [buildProgress, finishTask, applyCounters, setTotals, mkTask]
          · simp [buildProgress, finishTask, applyCounters, setTotals, mkTask]
          · simpa [buildProgress, finishTask, applyCounters, setTotals, mkTask] using
              percentageOf_le_100 (Nat.le_refl total)
      | some e =>
          cases ctxCancelled <;>
            · refine ⟨?_, fun _ => ?_, ?_⟩
              · simpa [buildProgress, finishTask, applyCounters, setTotals, mkTask] using hb.1
              · simpa [buildProgress, finishTask, applyCounters, setTotals, mkTask] using hb.2
              · simpa [buildProgress, finishTask, applyCounters, setTotals, mkTask] using
                  percentageOf_le_100 hb.2

/-- C8 witness: the theorem applied to the concrete Pending snapshot of a
freshly queued task. -/
theorem C8_witness :
    (buildProgress (mkTask 9 TaskType.uploadFile "s" "d" "n")).completedFiles ≤
      (buildProgress (mkTask 9 TaskType.uploadFile "s" "d" "n")).totalFiles ∧
    (0 < (buildProgress (mkTask 9 TaskType.uploadFile "s" "d" "n")).totalSize →
      (buildProgress (mkTask 9 TaskType.uploadFile "s" "d" "n")).bytesTransferred ≤
        (buildProgress (mkTask 9 TaskType.uploadFile "s" "d" "n")).totalSize) ∧
    (buildProgress (mkTask 9 TaskType.uploadFile "s" "d" "n")).percentage ≤ 100 :=
  C8_emitted_snapshot_bounds 9 TaskType.uploadFile "s" "d" "n" (fun _ => none) _
    Emitted.pendingSnap

/-! ## Credential decryptor: the roundtrip direction of C5

The spec's cryptographic-correctness claim has three conjuncts.  The first
one — `decrypt(encrypt(P, W), W) = P` — is proved below for EVERY key
derivation function and EVERY keyed block permutation, hence in particular
for the real PBKDF2-SHA256/AES-256 instantiation.  The remaining two
conjuncts (wrong passphrase always fails, any single-byte flip always
fails) are equivalent to collision-freeness properties of
PBKDF2-SHA256 and of AES-GCM's GHASH (for instance, a derived key with
`AES_K(0) = 0` would make GHASH constant and defeat the byte-flip
conjunct); they can be neither proved nor refuted from the code's
structure, so the claim as a whole is left unsettled. -/

theorem natToBeBytes_length : ∀ (len n : Nat), (natToBeBytes len n).length = len
  | 0, _ => rfl
  | len + 1, n => by
      simp [natToBeBytes, natToBeBytes_length len (n / 256)]

theorem ctrBlocks_length (aesK : Nat → Nat) :
    ∀ (n cb : Nat), (ctrBlocks aesK cb n).length = n
  | 0, _ => rfl
  | n + 1, cb => by
      simp [ctrBlocks, ctrBlocks_length aesK n (inc32 cb)]

theorem keystream_length (aesK : Nat → Nat) (j0 len : Nat) :
    (keystream aesK j0 len).length = len := by
  unfold keystream
  rw [List.length_take]
  have hfl :
      (((ctrBlocks aesK (inc32 j0) ((len + 15) / 16)).map (natToBeBytes 16)).flatten).length =
        16 * ((len + 15) / 16) := by
    rw [List.length_flatten, List.map_map]
    have hconst : (ctrBlocks aesK (inc32 j0) ((len + 15) / 16)).map
        (List.length ∘ natToBeBytes 16) =
        (ctrBlocks aesK (inc32 j0) ((len + 15) / 16)).map (fun _ => 16) :=
      List.map_congr_left (fun b _ => by simp [natToBeBytes_length])
    rw [hconst, List.map_const', List.sum_replicate, smul_eq_mul,
      ctrBlocks_length, Nat.mul_comm]
  rw [hfl]
  have h1 := Nat.div_add_mod (len + 15) 16
  have h2 : (len + 15) % 16 < 16 := Nat.mod_lt _ (by norm_num)
  omega

theorem xorBytes_length (a b : List Nat) :
    (xorBytes a b).length = min a.length b.length := by
  simp [xorBytes]

/-- Exclusive-or with the same keystream twice is the identity. -/
theorem xorBytes_cancel :
    ∀ (a b : List Nat), a.length ≤ b.length → xorBytes (xorBytes a b) b = a
  | [], _, _ => rfl
  | x :: a, [], h => by simp at h
  | x :: a, y :: b, h => by
      have ih := xorBytes_cancel a b (Nat.le_of_succ_le_succ h)
      simp only [xorBytes, List.zipWith_cons_cons] at ih ⊢
      rw [ih, Nat.xor_assoc, Nat.xor_self, Nat.xor_zero]

theorem take_append_of_length {α : Type} (c t : List α) (n : Nat)
    (h : c.length = n) : (c ++ t).take n = c := by
  subst h
  exact List.take_left c t

theorem drop_append_of_length {α : Type} (c t : List α) (n : Nat)
    (h : c.length = n) : (c ++ t).drop n = t := by
  subst h
  exact List.drop_left c t

theorem gcmSeal_length (aesK : Nat → Nat) (nonce P : List Nat) :
    (gcmSeal aesK nonce P).length = P.length + 16 := by
  unfold gcmSeal gcmTag
  rw [List.length_append, natToBeBytes_length, xorBytes_length, keystream_length,
    Nat.min_self]

/-- GCM open inverts GCM seal for any keyed block function. -/
theorem gcmOpen_gcmSeal (aesK : Nat → Nat) (nonce P : List Nat) :
    gcmOpen aesK nonce (gcmSeal aesK nonce P) = some P := by
  have hlc : (xorBytes P (keystream aesK (j0Of nonce) P.length)).length = P.length := by
    rw [xorBytes_length, keystream_length, Nat.min_self]
  have hlt : (gcmTag aesK nonce
      (xorBytes P (keystream aesK (j0Of nonce) P.length))).length = 16 :=
    natToBeBytes_length 16 _
  unfold gcmSeal gcmOpen
  rw [List.length_append, hlc, hlt]
  rw [if_neg (by omega)]
  have hsub : P.length + 16 - 16 = P.length := by omega
  rw [hsub, take_append_of_length _ _ _ hlc, drop_append_of_length _ _ _ hlc]
  rw [if_pos rfl, hlc,
    xorBytes_cancel P _ (Nat.le_of_eq (keystream_length aesK (j0Of nonce) P.length).symm)]

/-- The roundtrip conjunct of the spec's cryptographic-correctness claim:
for every KDF and keyed block permutation, every non-empty plaintext and
passphrase, and a salt and nonce of the generated sizes,
`DecryptPrivateKey` applied to `EncryptPrivateKey`'s output with the same
passphrase yields the plaintext. -/
theorem decryptPrivateKey_encryptPrivateKey
    (kdf : String → List Nat → List Nat) (aes : List Nat → Nat → Nat)
    (P : List Nat) (W : String) (salt nonce : List Nat)
    (hP : P ≠ []) (hW : W ≠ "") (hsalt : salt.length = 32)
    (hnonce : nonce.length = 12) :
    EncryptPrivateKey kdf aes P W salt nonce =
      some (nonce ++ gcmSeal (aes (kdf W salt)) nonce P, salt) ∧
    DecryptPrivateKey kdf aes (nonce ++ gcmSeal (aes (kdf W salt)) nonce P) salt W =
      some P := by
  have hPl : 0 < P.length := List.length_pos.2 hP
  have hsl : (gcmSeal (aes (kdf W salt)) nonce P).length = P.length + 16 :=
    gcmSeal_length _ nonce P
  have hel : (nonce ++ gcmSeal (aes (kdf W salt)) nonce P).length = P.length + 28 := by
    rw [List.length_append, hnonce, hsl]
    omega
  constructor
  · unfold EncryptPrivateKey
    rw [if_neg (by omega), if_neg hW]
  · unfold DecryptPrivateKey
    rw [hel]
    rw [if_neg (by omega), if_neg (by simp [hsalt]), if_neg hW, if_neg (by omega)]
    rw [take_append_of_length _ _ _ hnonce, drop_append_of_length _ _ _ hnonce]
    exact gcmOpen_gcmSeal _ nonce P

/-- The roundtrip theorem evaluated at a concrete plaintext, passphrase,
salt, nonce, KDF and block function. -/
theorem decryptPrivateKey_encryptPrivateKey_example :
    DecryptPrivateKey (fun w s => [w.length % 256] ++ s.take 1) (fun k b => b ^^^ k.length)
      ((EncryptPrivateKey (fun w s => [w.length % 256] ++ s.take 1)
        (fun k b => b ^^^ k.length) [104, 105] "alpha"
        (List.replicate 32 7) (List.replicate 12 3)).getD ([], [])).1
      (List.replicate 32 7) "alpha" = some [104, 105] := by
  have h := decryptPrivateKey_encryptPrivateKey
    (fun w s => [w.length % 256] ++ s.take 1) (fun k b => b ^^^ k.length)
    [104, 105] "alpha" (List.replicate 32 7) (List.replicate 12 3)
    (by decide) (by decide) (by decide) (by decide)
  rw [h.1]
  exact h.2

end Marix
